import Mathlib

/-!
Shallow embedding of the NASA APOD Airflow pipeline scripts
(`include/scripts/etl_functions.py` and `include/scripts/version_control.py`)
together with proofs about the extraction retry state machine, the
transformation step, the dual-sink verification step, and the git
commit/push steps.

Machine-level effects are made explicit:
* the HTTP responses seen by each attempt of `extract_apod_data` are an
  environment function `responses : Nat -> FetchOutcome`;
* `time.sleep` calls are recorded as a trace of slept durations (seconds);
* the historical CSV store is the parsed content of
  `/usr/local/airflow/include/data/apod_data.csv` (`none` when the file is
  absent or unreadable, `some rows` when readable);
* raised Python exceptions become explicit `raised`/`error` outcomes;
* git repository state (working tree, commit list, config) is a record and
  each script function is a state transformer on it.
-/

/-- Where a record came from: the live API, the CSV fallback, or the
synthetic placeholder.  In the source this is implicit in which return
statement of `extract_apod_data` produced the record. -/
inductive Provenance
  | live
  | cached
  | placeholder
deriving DecidableEq

/-- A raw record as returned by the NASA APOD API (`response.json()`):
each field may be absent, matching `raw_data.get(...)` usage downstream. -/
structure RawRecord where
  date : Option String
  title : Option String
  url : Option String
  hdurl : Option String
  media_type : Option String
  explanation : Option String
  copyright : Option String
deriving DecidableEq

/-- One row of the historical CSV store `apod_data.csv`.  Rows are written
by `load_to_csv` from transformed records, so every column is present. -/
structure CsvRow where
  date : String
  title : String
  url : String
  hdurl : String
  media_type : String
  explanation : String
  copyright : String
  retrieved_at : String
deriving DecidableEq

/-- Classification of one `requests.get` call inside `extract_apod_data`:
a parseable 2xx success, an `HTTPError` carrying a status code (raised
explicitly for 429/503, or by `response.raise_for_status()` for other
error statuses), or a network-level `RequestException`. -/
inductive FetchOutcome
  | success (data : RawRecord)
  | httpError (status : Nat)
  | netError
deriving DecidableEq

/-- The exception `extract_apod_data` can let escape: a non-retryable
`HTTPError` (line 71 of `etl_functions.py`) or a `RequestException` on the
final attempt (line 81). -/
inductive ExtractError
  | httpFatal (status : Nat)
  | network
deriving DecidableEq

/-- Result of a call to `extract_apod_data`: either a returned record with
the provenance of the return site, or a raised exception. -/
inductive ExtractOutcome
  | returned (record : RawRecord) (prov : Provenance)
  | raised (e : ExtractError)
deriving DecidableEq

/-- A whole run of `extract_apod_data`: its outcome plus the trace of
`time.sleep` durations (in seconds, in call order). -/
structure ExtractRun where
  outcome : ExtractOutcome
  sleeps : List Nat
deriving DecidableEq

/-- The environment a run of `extract_apod_data` executes in:
`responses n` is what the HTTP call of attempt `n` produces, `csvStore` is
the readable content of the historical CSV (`none` = file absent or
unreadable, `some []` = empty data frame), `today` is
`datetime.now().date().isoformat()`. -/
structure ExtractEnv where
  responses : Nat → FetchOutcome
  csvStore : Option (List CsvRow)
  today : String

/-- `max_retries = 5` in `extract_apod_data`. -/
def maxRetries : Nat := 5

/-- `base_backoff = 5` seconds in `extract_apod_data`. -/
def baseBackoff : Nat := 5

/-- The placeholder record built at lines 110-118 of `etl_functions.py`. -/
def placeholderRecord (today : String) : RawRecord :=
  { date := some today
    title := some "NASA APOD (placeholder)"
    url := some "https://apod.nasa.gov/apod/image/1901/Placeholder.jpg"
    hdurl := some "https://apod.nasa.gov/apod/image/1901/Placeholder.jpg"
    media_type := some "image"
    explanation := some "Placeholder APOD used due to API rate limits or connectivity issues."
    copyright := some "NASA" }

/-- The API-shaped record built from the most recent CSV row at lines
93-101 of `etl_functions.py` (every CSV column is present, so each
`latest.get(...)`/`in` test resolves to the stored value). -/
def cachedRecord (r : CsvRow) : RawRecord :=
  { date := some r.date
    title := some r.title
    url := some r.url
    hdurl := some r.hdurl
    media_type := some r.media_type
    explanation := some r.explanation
    copyright := some r.copyright }

/-- Lexicographic comparison of character lists by code point — the
order Python's `<` uses on `str` values, hence the order
`df.sort_values('date')` sorts these object-dtype columns by. -/
def charListLt : List Char → List Char → Bool
  | _, [] => false
  | [], _ :: _ => true
  | a :: as, b :: bs =>
      if a.toNat < b.toNat then true
      else if b.toNat < a.toNat then false
      else charListLt as bs

/-- Python string comparison `a < b`. -/
def strLt (a b : String) : Bool :=
  charListLt a.data b.data

/-- The row selected by `df.sort_values('date', ascending=False).iloc[0]`:
a row whose `date` is maximal (the first such row of the list). -/
def latestRow (r : CsvRow) (rs : List CsvRow) : CsvRow :=
  rs.foldl (fun best x => if strLt best.date x.date then x else best) r

/-- The fallback chain entered when the retry loop of `extract_apod_data`
finishes without returning (lines 83-121): use the most recent CSV row if
the store has one, else the placeholder record. -/
def fallbackRun (env : ExtractEnv) (sleeps : List Nat) : ExtractRun :=
  match env.csvStore with
  | some (r :: rs) =>
      { outcome := .returned (cachedRecord (latestRow r rs)) .cached, sleeps := sleeps }
  | some [] =>
      { outcome := .returned (placeholderRecord env.today) .placeholder, sleeps := sleeps }
  | none =>
      { outcome := .returned (placeholderRecord env.today) .placeholder, sleeps := sleeps }

/-- The retry loop `for attempt in range(1, max_retries + 1)` of
`extract_apod_data` (lines 39-81), with `fuel` the number of remaining
iterations (`maxRetries + 1 - attempt`).  A 429/503 `HTTPError` always
sleeps `base_backoff * 2 ** (attempt - 1)` and continues; any other
`HTTPError` re-raises; a network `RequestException` sleeps and continues
only while `attempt < max_retries`, else re-raises.  A finished loop
enters the fallback chain. -/
def extractGo (env : ExtractEnv) : Nat → Nat → List Nat → ExtractRun
  | _, 0, sleeps => fallbackRun env sleeps
  | attempt, fuel + 1, sleeps =>
      match env.responses attempt with
      | .success d => { outcome := .returned d .live, sleeps := sleeps }
      | .httpError status =>
          if status = 429 ∨ status = 503 then
            extractGo env (attempt + 1) fuel (sleeps ++ [baseBackoff * 2 ^ (attempt - 1)])
          else
            { outcome := .raised (.httpFatal status), sleeps := sleeps }
      | .netError =>
          if attempt < maxRetries then
            extractGo env (attempt + 1) fuel (sleeps ++ [baseBackoff * 2 ^ (attempt - 1)])
          else
            { outcome := .raised .network, sleeps := sleeps }

/-- `extract_apod_data` of `etl_functions.py`: run the retry loop starting
at attempt 1 (the outer `try`/`except` at lines 36 and 123-125 re-raises,
so it is the identity on outcomes). -/
def extract_apod_data (env : ExtractEnv) : ExtractRun :=
  extractGo env 1 maxRetries []

/-- A fetch outcome the loop treats as a retryable failure: an `HTTPError`
with status 429 or 503, or a network-level `RequestException`. -/
def retryableFailure : FetchOutcome → Prop
  | .success _ => False
  | .httpError status => status = 429 ∨ status = 503
  | .netError => True

/-- A transformed record as built by `transform_apod_data`. -/
structure TransformedRecord where
  date : String
  title : String
  url : String
  hdurl : String
  media_type : String
  explanation : String
  copyright : String
  retrieved_at : String
deriving DecidableEq

/-- Python string slicing `s[:n]`: the first `n` characters of `s`. -/
def pySlice (s : String) (n : Nat) : String :=
  String.mk (s.data.take n)

/-- `transform_apod_data` of `etl_functions.py` (lines 128-177): `none`
input models a falsy `xcom_pull` result (line 141-142); otherwise the
field selection/defaulting of lines 148-157 runs, and the validation at
lines 160-161 rejects a missing or empty `date`.  `now` stands for
`datetime.now().isoformat()`. -/
def transform_apod_data (raw? : Option RawRecord) (now : String) :
    Except String TransformedRecord :=
  match raw? with
  | none => .error "No data received from extraction task"
  | some raw =>
      if raw.date = none ∨ raw.date = some "" then
        .error "Date field is missing from API response"
      else
        .ok { date := raw.date.getD ""
              title := raw.title.getD "No Title"
              url := raw.url.getD ""
              hdurl := raw.hdurl.getD ""
              media_type := raw.media_type.getD "image"
              explanation := pySlice (raw.explanation.getD "") 1000
              copyright := pySlice (raw.copyright.getD "NASA") 255
              retrieved_at := now }

/-- Whether an `Except` result is a success. -/
def exceptOk : Except String TransformedRecord → Bool
  | .ok _ => true
  | .error _ => false

/-- The state of the two sinks read by `verify_data`: the dates of the
rows of the `apod_data` Postgres table, and the content of the CSV file
(`none` = file absent). -/
structure SinkState where
  pgDates : List String
  csv : Option (List CsvRow)
deriving DecidableEq

/-- The verification report assembled (and logged) by `verify_data`. -/
structure VerificationReport where
  postgres_count : Nat
  csv_exists : Bool
  csv_rows : Nat
  passed : Bool
deriving DecidableEq

/-- `verify_data` of `etl_functions.py` (lines 362-407): count Postgres
rows for the expected date, test CSV existence, count CSV rows, and pass
iff `postgres_count > 0 and csv_exists`.  The sink state is returned
unchanged because the function only issues reads (a `SELECT` and file
reads). -/
def verify_data (st : SinkState) (expectedDate : String) :
    SinkState × VerificationReport :=
  let cnt := st.pgDates.countP (fun d => d = expectedDate)
  let ex := st.csv.isSome
  let rows := match st.csv with
    | some rs => rs.length
    | none => 0
  (st, { postgres_count := cnt
         csv_exists := ex
         csv_rows := rows
         passed := decide (0 < cnt) && ex })

/-- The git configuration touched by `version_control.py`: local identity
(`user.email`, `user.name`), the `origin` remote URL, the global
`safe.directory` entries (`git config --global --add` appends one every
call), and the global `credential.helper`. -/
structure GitConfig where
  userEmail : Option String
  userName : Option String
  remoteOrigin : Option String
  safeDirs : List String
  credentialHelper : Option String
deriving DecidableEq

/-- A git commit: its message and the snapshot of the working tree it
recorded. -/
structure Commit where
  message : String
  tree : List (String × String)
deriving DecidableEq

/-- The git repository at `/usr/local/airflow/include/data`: working-tree
files (name, content), the commit list (newest first), the configuration,
and the checked-out branch name. -/
structure Repo where
  workTree : List (String × String)
  commits : List Commit
  config : GitConfig
  branch : String
deriving DecidableEq

/-- The data directory every script `cd`s into and registers as a git
safe directory. -/
def dataDir : String := "/usr/local/airflow/include/data"

/-- The hard-coded GitHub remote URL of `version_control.py`. -/
def githubRemoteUrl : String := "https://github.com/zainulabidin776/dag-airflow.git"

/-- Whether `git status --porcelain` prints nothing after `git add -A`:
the working tree equals the tree of the head commit (or is empty when no
commit exists yet). -/
def repoClean (r : Repo) : Bool :=
  match r.commits with
  | c :: _ => r.workTree = c.tree
  | [] => r.workTree = []

/-- The identity of a commit as reported by `git rev-parse HEAD`, modelled
as the length of the commit list (0 = unborn HEAD; distinct histories of
one run get distinct values). -/
def headHash (r : Repo) : Nat := r.commits.length

/-- The configuration writes `commit_to_git` performs before committing
(lines 300-322 of `version_control.py`): append a `safe.directory` entry,
unconditionally set `user.email` and `user.name` to the hard-coded GitHub
identity, and add the `origin` remote only when `git remote get-url
origin` fails. -/
def applyCommitConfig (c : GitConfig) : GitConfig :=
  let c1 : GitConfig :=
    { c with safeDirs := c.safeDirs ++ [dataDir]
             userEmail := some "itsmezayynn@gmail.com"
             userName := some "zainulabidin776" }
  match c1.remoteOrigin with
  | none => { c1 with remoteOrigin := some githubRemoteUrl }
  | some _ => c1

/-- The date used in the commit message (line 327 of
`version_control.py`): `data.get('date', 'unknown') if data else
'unknown'`. -/
def commitDate (data? : Option TransformedRecord) : String :=
  match data? with
  | some d => d.date
  | none => "unknown"

/-- Result of `commit_to_git`: the early return `"No changes to commit"`
or a successful commit with its hash and message. -/
inductive CommitOutcome
  | noChanges
  | committed (hash : Nat) (message : String)
deriving DecidableEq

/-- `commit_to_git` of `version_control.py` (lines 279-392): apply the
configuration writes, build the message `"Update APOD data version for
<date>"`, stage everything (`git add -A`), and if `git status --porcelain`
is empty return `"No changes to commit"`; otherwise commit the working
tree and report the new head hash.  All paths return; the only `run`
calls that could raise (`git log`, `git rev-parse HEAD`) execute after a
successful commit, when a head commit exists. -/
def commit_to_git (repo : Repo) (data? : Option TransformedRecord) :
    Repo × CommitOutcome :=
  let repo1 : Repo := { repo with config := applyCommitConfig repo.config }
  let msg : String := "Update APOD data version for " ++ commitDate data?
  if repoClean repo1 then
    (repo1, .noChanges)
  else
    let repo2 : Repo :=
      { repo1 with commits := { message := msg, tree := repo1.workTree } :: repo1.commits }
    (repo2, .committed (headHash repo2) msg)

/-- The externally determined conditions of a `push_to_github` run: the
`GITHUB_TOKEN` environment variable, whether `git checkout master` and
`git checkout -b master origin/master` would succeed, and the exit code
of `git push -u origin <branch>`. -/
structure PushEnv where
  githubToken : Option String
  checkoutMasterOk : Bool
  checkoutTrackOk : Bool
  pushReturnCode : Nat
deriving DecidableEq

/-- Result of `push_to_github`: the success return, the non-zero-exit
return `"Push to GitHub failed (code: N)"`, or the outer exception
handler's `"GitHub push skipped"`. -/
inductive PushOutcome
  | pushed (branch : String)
  | pushFailed (code : Nat)
  | skipped
deriving DecidableEq

/-- Whether a push outcome is the success return. -/
def PushOutcome.ok : PushOutcome → Bool
  | .pushed _ => true
  | _ => false

/-- The reason tag of a push outcome, one per return statement of
`push_to_github`. -/
def PushOutcome.reason : PushOutcome → String
  | .pushed _ => "pushed"
  | .pushFailed _ => "push-failed"
  | .skipped => "skipped"

/-- `push_to_github` of `version_control.py` (lines 395-544): append a
`safe.directory` entry; if `git remote -v` prints nothing, add the
`origin` remote and continue; read the current branch with `git rev-parse
--abbrev-ref HEAD` (which fails on an unborn HEAD, landing in the outer
handler's `"GitHub push skipped"` return); try to switch to `master`
(first `git checkout master`, then `git checkout -b master
origin/master`, else stay put); configure the credential helper when a
token is present; push with `check=False` and map the exit code to the
success or failure return.  Every failure path returns a value — nothing
propagates. -/
def push_to_github (repo : Repo) (env : PushEnv) : Repo × PushOutcome :=
  let cfg0 : GitConfig := { repo.config with safeDirs := repo.config.safeDirs ++ [dataDir] }
  let cfg1 : GitConfig :=
    match cfg0.remoteOrigin with
    | none => { cfg0 with remoteOrigin := some githubRemoteUrl }
    | some _ => cfg0
  let repoA : Repo := { repo with config := cfg1 }
  match repoA.commits with
  | [] => (repoA, .skipped)
  | _ :: _ =>
      let current := repoA.branch
      let switched :=
        if current ≠ "master" then
          if env.checkoutMasterOk then ({ repoA with branch := "master" }, "master")
          else if env.checkoutTrackOk then ({ repoA with branch := "master" }, "master")
          else (repoA, current)
        else (repoA, current)
      let repoB := switched.1
      let current2 := switched.2
      let repoC : Repo :=
        match env.githubToken with
        | some _ => { repoB with config := { repoB.config with credentialHelper := some "store" } }
        | none => repoB
      if env.pushReturnCode = 0 then (repoC, .pushed current2)
      else (repoC, .pushFailed env.pushReturnCode)

/-- Sample historical CSV row (older date). -/
def sampleRow1 : CsvRow :=
  { date := "2024-11-13", title := "Old Nebula", url := "http://x/a.jpg"
    hdurl := "http://x/a_hd.jpg", media_type := "image", explanation := "old"
    copyright := "NASA", retrieved_at := "2024-11-13T00:00:00" }

/-- Sample historical CSV row (most recent date). -/
def sampleRow2 : CsvRow :=
  { date := "2024-11-14", title := "Test Nebula", url := "http://x/img.jpg"
    hdurl := "http://x/img_hd.jpg", media_type := "image", explanation := "..."
    copyright := "NASA", retrieved_at := "2024-11-14T00:00:00" }

/-- Run environment in which every attempt is answered with HTTP 429 and
the historical store holds two rows. -/
def envAll429 : ExtractEnv :=
  { responses := fun _ => .httpError 429
    csvStore := some [sampleRow1, sampleRow2]
    today := "2024-11-15" }

/-- Run environment in which every attempt fails with a network-level
`RequestException` and the historical store holds two rows. -/
def envAllNet : ExtractEnv :=
  { responses := fun _ => .netError
    csvStore := some [sampleRow1, sampleRow2]
    today := "2024-11-15" }

/-- Run environment with four network-level failures, then an HTTP 503 on
the final attempt, and no historical store. -/
def envMixed : ExtractEnv :=
  { responses := fun n => if n = 5 then .httpError 503 else .netError
    csvStore := none
    today := "2024-11-15" }

/-- A raw record whose `explanation` is 2000 characters long and whose
`copyright` is absent. -/
def rawLong : RawRecord :=
  { date := some "2024-11-14", title := some "Test Nebula", url := some "http://x/img.jpg"
    hdurl := none, media_type := some "image"
    explanation := some (String.mk (List.replicate 2000 'e'))
    copyright := none }

/-- The transformed record `transform_apod_data` produces from `rawLong`. -/
def tLong : TransformedRecord :=
  { date := "2024-11-14", title := "Test Nebula", url := "http://x/img.jpg"
    hdurl := "", media_type := "image"
    explanation := pySlice (String.mk (List.replicate 2000 'e')) 1000
    copyright := pySlice "NASA" 255
    retrieved_at := "2024-11-14T00:05:00" }

/-- A fresh git configuration with nothing set. -/
def sampleConfig : GitConfig :=
  { userEmail := none, userName := none, remoteOrigin := none
    safeDirs := [], credentialHelper := none }

/-- A repository with a clean (empty) working tree and no commits. -/
def repoCleanSample : Repo :=
  { workTree := [], commits := [], config := sampleConfig, branch := "main" }

/-- A repository with an uncommitted data file and no commits. -/
def repoDirtySample : Repo :=
  { workTree := [("apod_data.csv", "date,title\n2024-11-14,Test Nebula")]
    commits := [], config := sampleConfig, branch := "main" }

/-- A repository whose configuration already carries a different author
identity and a different remote. -/
def repoAlice : Repo :=
  { workTree := [("apod_data.csv", "x")], commits := []
    config := { userEmail := some "alice@example.com", userName := some "Alice"
                remoteOrigin := some "https://example.com/other.git"
                safeDirs := [], credentialHelper := none }
    branch := "main" }

/-- A repository with one commit, a dirty tree, and no configured remote. -/
def repoWithCommit : Repo :=
  { workTree := [("apod_data.csv", "v1")]
    commits := [{ message := "Update APOD data version for 2024-11-13"
                  tree := [("apod_data.csv", "v0")] }]
    config := sampleConfig
    branch := "master" }

/-- Push conditions under which the `git push` exits non-zero and every
optional step is unavailable. -/
def envPushFail : PushEnv :=
  { githubToken := none, checkoutMasterOk := false, checkoutTrackOk := false
    pushReturnCode := 1 }

/-- Push conditions under which everything succeeds. -/
def envPushOk : PushEnv :=
  { githubToken := some "tok", checkoutMasterOk := true, checkoutTrackOk := true
    pushReturnCode := 0 }

theorem charListLt_irrefl : ∀ (a : List Char), charListLt a a = false := by
  intro a
  induction a with
  | nil => rfl
  | cons c cs ih => simp [charListLt, ih]

theorem charListLt_trans : ∀ {a b c : List Char},
    charListLt a b = true → charListLt b c = true → charListLt a c = true := by
  intro a
  induction a with
  | nil =>
      intro b c hab hbc
      cases b with
      | nil => simp [charListLt] at hab
      | cons b0 bs =>
          cases c with
          | nil => simp [charListLt] at hbc
          | cons c0 cs => simp [charListLt]
  | cons a0 as ih =>
      intro b c hab hbc
      cases b with
      | nil => simp [charListLt] at hab
      | cons b0 bs =>
          cases c with
          | nil => simp [charListLt] at hbc
          | cons c0 cs =>
              simp only [charListLt] at hab hbc ⊢
              by_cases h1 : a0.toNat < b0.toNat
              · by_cases h2 : b0.toNat < c0.toNat
                · rw [if_pos (Nat.lt_trans h1 h2)]
                · by_cases h3 : c0.toNat < b0.toNat
                  · rw [if_neg h2, if_pos h3] at hbc
                    exact Bool.noConfusion hbc
                  · rw [if_pos (show a0.toNat < c0.toNat by omega)]
              · by_cases h4 : b0.toNat < a0.toNat
                · rw [if_neg h1, if_pos h4] at hab
                  exact Bool.noConfusion hab
                · rw [if_neg h1, if_neg h4] at hab
                  by_cases h2 : b0.toNat < c0.toNat
                  · rw [if_pos (show a0.toNat < c0.toNat by omega)]
                  · by_cases h3 : c0.toNat < b0.toNat
                    · rw [if_neg h2, if_pos h3] at hbc
                      exact Bool.noConfusion hbc
                    · rw [if_neg h2, if_neg h3] at hbc
                      rw [if_neg (show ¬ a0.toNat < c0.toNat by omega),
                          if_neg (show ¬ c0.toNat < a0.toNat by omega)]
                      exact ih hab hbc

theorem charListLt_lt_of_lt_of_not_lt : ∀ {a b c : List Char},
    charListLt a b = true → charListLt c b = false → charListLt a c = true := by
  intro a
  induction a with
  | nil =>
      intro b c hab hcb
      cases b with
      | nil => simp [charListLt] at hab
      | cons b0 bs =>
          cases c with
          | nil => simp [charListLt] at hcb
          | cons c0 cs => simp [charListLt]
  | cons a0 as ih =>
      intro b c hab hcb
      cases b with
      | nil => simp [charListLt] at hab
      | cons b0 bs =>
          cases c with
          | nil => simp [charListLt] at hcb
          | cons c0 cs =>
              simp only [charListLt] at hab hcb ⊢
              by_cases hc0 : c0.toNat < b0.toNat
              · rw [if_pos hc0] at hcb
                exact Bool.noConfusion hcb
              · rw [if_neg hc0] at hcb
                by_cases h1 : a0.toNat < b0.toNat
                · by_cases h2 : b0.toNat < c0.toNat
                  · rw [if_pos (Nat.lt_trans h1 h2)]
                  · rw [if_pos (show a0.toNat < c0.toNat by omega)]
                · by_cases h4 : b0.toNat < a0.toNat
                  · rw [if_neg h1, if_pos h4] at hab
                    exact Bool.noConfusion hab
                  · rw [if_neg h1, if_neg h4] at hab
                    by_cases h2 : b0.toNat < c0.toNat
                    · rw [if_pos (show a0.toNat < c0.toNat by omega)]
                    · rw [if_neg h2] at hcb
                      rw [if_neg (show ¬ a0.toNat < c0.toNat by omega),
                          if_neg (show ¬ c0.toNat < a0.toNat by omega)]
                      exact ih hab hcb

theorem strLt_irrefl (a : String) : strLt a a = false :=
  charListLt_irrefl a.data

theorem strLt_trans {a b c : String} (h1 : strLt a b = true) (h2 : strLt b c = true) :
    strLt a c = true :=
  charListLt_trans h1 h2

theorem strLt_lt_of_lt_of_not_lt {a b c : String} (h1 : strLt a b = true)
    (h2 : strLt c b = false) : strLt a c = true :=
  charListLt_lt_of_lt_of_not_lt h1 h2

theorem extractGo_step_http (env : ExtractEnv) (a f : Nat) (s : List Nat) (st : Nat)
    (h : env.responses a = .httpError st) (hst : st = 429 ∨ st = 503) :
    extractGo env a (f + 1) s = extractGo env (a + 1) f (s ++ [baseBackoff * 2 ^ (a - 1)]) := by
  simp only [extractGo, h]
  rw [if_pos hst]

theorem extractGo_step_net (env : ExtractEnv) (a f : Nat) (s : List Nat)
    (h : env.responses a = .netError) (ha : a < maxRetries) :
    extractGo env a (f + 1) s = extractGo env (a + 1) f (s ++ [baseBackoff * 2 ^ (a - 1)]) := by
  simp only [extractGo, h]
  rw [if_pos ha]

theorem extractGo_step_retry (env : ExtractEnv) (a f : Nat) (s : List Nat)
    (h : retryableFailure (env.responses a)) (ha : a < maxRetries) :
    extractGo env a (f + 1) s = extractGo env (a + 1) f (s ++ [baseBackoff * 2 ^ (a - 1)]) := by
  cases hr : env.responses a with
  | success d =>
      rw [hr] at h
      exact absurd h (by simp [retryableFailure])
  | httpError st =>
      rw [hr] at h
      exact extractGo_step_http env a f s st hr h
  | netError =>
      exact extractGo_step_net env a f s hr ha

theorem extract_first_four (env : ExtractEnv)
    (h14 : ∀ n, 1 ≤ n → n ≤ 4 → retryableFailure (env.responses n)) :
    extract_apod_data env = extractGo env 5 1 [5, 10, 20, 40] := by
  have h1 := h14 1 (by decide) (by decide)
  have h2 := h14 2 (by decide) (by decide)
  have h3 := h14 3 (by decide) (by decide)
  have h4 := h14 4 (by decide) (by decide)
  show extractGo env 1 (4 + 1) [] = extractGo env 5 1 [5, 10, 20, 40]
  rw [extractGo_step_retry env 1 4 [] h1 (by decide)]
  show extractGo env 2 (3 + 1) [5] = _
  rw [extractGo_step_retry env 2 3 [5] h2 (by decide)]
  show extractGo env 3 (2 + 1) [5, 10] = _
  rw [extractGo_step_retry env 3 2 [5, 10] h3 (by decide)]
  show extractGo env 4 (1 + 1) [5, 10, 20] = _
  rw [extractGo_step_retry env 4 1 [5, 10, 20] h4 (by decide)]
  rfl

theorem extract_fifth_http (env : ExtractEnv) (st : Nat)
    (hst : env.responses 5 = .httpError st) (hst2 : st = 429 ∨ st = 503) :
    extractGo env 5 1 [5, 10, 20, 40] = fallbackRun env [5, 10, 20, 40, 80] := by
  show extractGo env 5 (0 + 1) [5, 10, 20, 40] = _
  rw [extractGo_step_http env 5 0 [5, 10, 20, 40] st hst hst2]
  rfl

theorem extract_fifth_net (env : ExtractEnv) (hnet : env.responses 5 = .netError) :
    extractGo env 5 1 [5, 10, 20, 40] =
      { outcome := .raised .network, sleeps := [5, 10, 20, 40] } := by
  show extractGo env 5 (0 + 1) [5, 10, 20, 40] = _
  simp only [extractGo, hnet]
  rw [if_neg (by decide)]

theorem fallbackRun_sleeps (env : ExtractEnv) (s : List Nat) :
    (fallbackRun env s).sleeps = s := by
  cases h : env.csvStore with
  | none => simp [fallbackRun, h]
  | some rows =>
      cases rows with
      | nil => simp [fallbackRun, h]
      | cons r rs => simp [fallbackRun, h]

theorem latestRow_cons (r x : CsvRow) (xs : List CsvRow) :
    latestRow r (x :: xs) = latestRow (if strLt r.date x.date then x else r) xs := by
  simp [latestRow, List.foldl_cons]

theorem latestRow_spec (rs : List CsvRow) (r : CsvRow) :
    (latestRow r rs = r ∨ latestRow r rs ∈ rs)
    ∧ strLt (latestRow r rs).date r.date = false
    ∧ ∀ x ∈ rs, strLt (latestRow r rs).date x.date = false := by
  induction rs generalizing r with
  | nil =>
      exact ⟨Or.inl rfl, strLt_irrefl r.date, fun x hx => absurd hx (List.not_mem_nil x)⟩
  | cons x xs ih =>
      rw [latestRow_cons]
      cases hc : strLt r.date x.date with
      | true =>
          rw [if_pos rfl]
          obtain ⟨hmem, hub, hall⟩ := ih x
          refine ⟨?_, ?_, ?_⟩
          · rcases hmem with h | h
            · exact Or.inr (by rw [h]; exact List.mem_cons_self x xs)
            · exact Or.inr (List.mem_cons_of_mem _ h)
          · by_contra hne
            have hlt : strLt (latestRow x xs).date r.date = true := by
              cases h2 : strLt (latestRow x xs).date r.date
              · exact absurd h2 hne
              · rfl
            have hbad : strLt (latestRow x xs).date x.date = true := strLt_trans hlt hc
            rw [hub] at hbad
            exact Bool.noConfusion hbad
          · intro y hy
            rcases List.mem_cons.mp hy with hyx | hyxs
            · rw [hyx]; exact hub
            · exact hall y hyxs
      | false =>
          rw [if_neg (by simp)]
          obtain ⟨hmem, hub, hall⟩ := ih r
          refine ⟨?_, ?_, ?_⟩
          · rcases hmem with h | h
            · exact Or.inl h
            · exact Or.inr (List.mem_cons_of_mem _ h)
          · exact hub
          · intro y hy
            rcases List.mem_cons.mp hy with hyx | hyxs
            · rw [hyx]
              by_contra hne
              have hlt : strLt (latestRow r xs).date x.date = true := by
                cases h2 : strLt (latestRow r xs).date x.date
                · exact absurd h2 hne
                · rfl
              have hbad : strLt (latestRow r xs).date r.date = true :=
                strLt_lt_of_lt_of_not_lt hlt hc
              rw [hub] at hbad
              exact Bool.noConfusion hbad
            · exact hall y hyxs

/-- C1 (amended): when all five attempts of `extract_apod_data` fail with
retryable classifications and the final attempt's failure is an HTTP
429/503, the function does not raise — it returns a record through the
fallback chain, with provenance `cached` or `placeholder`; but when the
final attempt fails with a network-level request error, the function
re-raises instead of falling back. -/
theorem extract_retry_exhaustion_fallback (env : ExtractEnv)
    (h14 : ∀ n, 1 ≤ n → n ≤ 4 → retryableFailure (env.responses n)) :
    ((∃ st, env.responses 5 = .httpError st ∧ (st = 429 ∨ st = 503)) →
        ∃ rec prov, (extract_apod_data env).outcome = .returned rec prov
          ∧ (prov = .cached ∨ prov = .placeholder))
    ∧ (env.responses 5 = .netError →
        (extract_apod_data env).outcome = .raised .network) := by
  have hred := extract_first_four env h14
  constructor
  · rintro ⟨st, hst, hst2⟩
    rw [hred, extract_fifth_http env st hst hst2]
    cases hcsv : env.csvStore with
    | none =>
        refine ⟨placeholderRecord env.today, .placeholder, ?_, Or.inr rfl⟩
        simp [fallbackRun, hcsv]
    | some rows =>
        cases rows with
        | nil =>
            refine ⟨placeholderRecord env.today, .placeholder, ?_, Or.inr rfl⟩
            simp [fallbackRun, hcsv]
        | cons r rs =>
            refine ⟨cachedRecord (latestRow r rs), .cached, ?_, Or.inl rfl⟩
            simp [fallbackRun, hcsv]
  · intro hnet
    rw [hred, extract_fifth_net env hnet]

/-- C1 counterexample: in the concrete environment where every attempt
fails with a network-level request error — a retryable classification —
and the historical store is non-empty, `extract_apod_data` raises instead
of returning a fallback record, so the claim that retry exhaustion never
raises is false as stated. -/
theorem extract_network_exhaustion_raises :
    (extract_apod_data envAllNet).outcome = .raised .network
    ∧ envAllNet.csvStore = some [sampleRow1, sampleRow2] := by
  decide

/-- C1 witness: the amended theorem applied to two concrete environments
(503 on the final attempt with no store; network errors throughout with a
store). -/
theorem extract_retry_exhaustion_fallback_witness :
    (∃ rec prov, (extract_apod_data envMixed).outcome = .returned rec prov
      ∧ (prov = .cached ∨ prov = .placeholder))
    ∧ (extract_apod_data envAllNet).outcome = .raised .network := by
  constructor
  · exact (extract_retry_exhaustion_fallback envMixed
      (by intro n h1 h4; interval_cases n <;> exact trivial)).1 ⟨503, rfl, Or.inr rfl⟩
  · exact (extract_retry_exhaustion_fallback envAllNet (fun n _ _ => trivial)).2 rfl

/-- C2: when all five attempts fail with HTTP 429 and the historical CSV
store holds at least one row, `extract_apod_data` returns the record built
from a stored row of maximal date with provenance `cached`: the record's
`date` is the chosen row's date, the chosen row is in the store, and no
stored row has a strictly greater date. -/
theorem extract_cached_max_date (env : ExtractEnv)
    (h429 : ∀ n, 1 ≤ n → n ≤ 5 → env.responses n = .httpError 429)
    (r : CsvRow) (rs : List CsvRow) (hcsv : env.csvStore = some (r :: rs)) :
    (extract_apod_data env).outcome = .returned (cachedRecord (latestRow r rs)) .cached
    ∧ (cachedRecord (latestRow r rs)).date = some (latestRow r rs).date
    ∧ latestRow r rs ∈ r :: rs
    ∧ ∀ x ∈ r :: rs, strLt (latestRow r rs).date x.date = false := by
  have h14 : ∀ n, 1 ≤ n → n ≤ 4 → retryableFailure (env.responses n) := by
    intro n hn1 hn4
    rw [h429 n hn1 (by omega)]
    exact Or.inl rfl
  obtain ⟨hmem, hub, hall⟩ := latestRow_spec rs r
  refine ⟨?_, rfl, ?_, ?_⟩
  · rw [extract_first_four env h14,
        extract_fifth_http env 429 (h429 5 (by decide) (by decide)) (Or.inl rfl)]
    simp [fallbackRun, hcsv]
  · rcases hmem with h | h
    · rw [h]; exact List.mem_cons_self r rs
    · exact List.mem_cons_of_mem _ h
  · intro x hx
    rcases List.mem_cons.mp hx with h | h
    · rw [h]; exact hub
    · exact hall x h

/-- C2 witness: the theorem applied to the concrete all-429 environment
with a two-row store; the selected row is the one with the later date. -/
theorem extract_cached_max_date_witness :
    (extract_apod_data envAll429).outcome
      = .returned (cachedRecord (latestRow sampleRow1 [sampleRow2])) .cached
    ∧ latestRow sampleRow1 [sampleRow2] ∈ sampleRow1 :: [sampleRow2] := by
  have h := extract_cached_max_date envAll429 (fun n _ _ => rfl) sampleRow1 [sampleRow2] rfl
  exact ⟨h.1, h.2.2.1⟩

/-- C5 (amended): on a retryable failure at attempt `n < maxRetries` the
loop sleeps `baseBackoff * 2 ^ (n - 1)` seconds before attempt `n + 1`
(5, 10, 20, 40 s for attempts 1-4); at attempt `n = maxRetries` an HTTP
429/503 additionally sleeps `baseBackoff * 2 ^ (maxRetries - 1)` = 80 s
before entering the fallback path, while a network-level failure raises
without a fifth sleep. -/
theorem extract_backoff_schedule (env : ExtractEnv)
    (h14 : ∀ n, 1 ≤ n → n ≤ 4 → retryableFailure (env.responses n)) :
    ((∃ st, env.responses 5 = .httpError st ∧ (st = 429 ∨ st = 503)) →
        (extract_apod_data env).sleeps = [5, 10, 20, 40, 80])
    ∧ (env.responses 5 = .netError →
        (extract_apod_data env).sleeps = [5, 10, 20, 40]) := by
  have hred := extract_first_four env h14
  constructor
  · rintro ⟨st, hst, hst2⟩
    rw [hred, extract_fifth_http env st hst hst2, fallbackRun_sleeps]
  · intro hnet
    rw [hred, extract_fifth_net env hnet]

/-- C5 counterexample: with HTTP 429 on every attempt, the run sleeps
five times — 5, 10, 20, 40 and then 80 seconds at the final attempt —
before entering the fallback path, not four times as the claim's
"transitions to the fallback path instead of sleeping" requires. -/
theorem extract_final_attempt_sleeps :
    (extract_apod_data envAll429).sleeps = [5, 10, 20, 40, 80]
    ∧ (extract_apod_data envAll429).sleeps ≠ [5, 10, 20, 40] := by
  decide

/-- C5 witness: the amended theorem applied to the all-429 and
all-network-error environments. -/
theorem extract_backoff_schedule_witness :
    (extract_apod_data envAll429).sleeps = [5, 10, 20, 40, 80]
    ∧ (extract_apod_data envAllNet).sleeps = [5, 10, 20, 40] := by
  constructor
  · exact (extract_backoff_schedule envAll429 (fun n _ _ => Or.inl rfl)).1 ⟨429, rfl, Or.inl rfl⟩
  · exact (extract_backoff_schedule envAllNet (fun n _ _ => trivial)).2 rfl

theorem pySlice_length (s : String) (n : Nat) : (pySlice s n).length = min n s.length := by
  show (s.data.take n).length = min n s.data.length
  exact List.length_take n s.data

theorem pySlice_of_le (s : String) (n : Nat) (h : s.length ≤ n) : pySlice s n = s := by
  show String.mk (s.data.take n) = s
  rw [List.take_of_length_le h]

/-- C4: for every state of the two sinks, `verify_data` reports
`passed = true` exactly when the Postgres row count for the expected date
is positive and the CSV file exists, and it leaves the sink state
unchanged (it only reads). -/
theorem verify_passed_iff_and_readonly (st : SinkState) (d : String) :
    ((verify_data st d).2.passed = true ↔
      0 < (verify_data st d).2.postgres_count ∧ (verify_data st d).2.csv_exists = true)
    ∧ (verify_data st d).1 = st := by
  refine ⟨?_, rfl⟩
  simp [verify_data]

/-- C6: `transform_apod_data` fails (producing no output record) exactly
when the raw record's `date` is missing or empty; any raw record with a
non-empty `date` transforms successfully. -/
theorem transform_date_validation (raw : RawRecord) (now : String) :
    exceptOk (transform_apod_data (some raw) now) = false ↔
      (raw.date = none ∨ raw.date = some "") := by
  by_cases h : raw.date = none ∨ raw.date = some ""
  · simp [transform_apod_data, h, exceptOk]
  · simp [transform_apod_data, h, exceptOk]

/-- C7: on every successful transformation, `explanation` is the input
explanation truncated to at most 1000 characters, `copyright` is
truncated to at most 255 characters, and inputs already within the caps
pass through unmodified. -/
theorem transform_truncation (raw : RawRecord) (now : String) (t : TransformedRecord)
    (h : transform_apod_data (some raw) now = .ok t) :
    t.explanation = pySlice (raw.explanation.getD "") 1000
    ∧ t.explanation.length = min 1000 (raw.explanation.getD "").length
    ∧ t.copyright = pySlice (raw.copyright.getD "NASA") 255
    ∧ t.copyright.length = min 255 (raw.copyright.getD "NASA").length
    ∧ ((raw.explanation.getD "").length ≤ 1000 → t.explanation = raw.explanation.getD "")
    ∧ ((raw.copyright.getD "NASA").length ≤ 255 → t.copyright = raw.copyright.getD "NASA") := by
  by_cases hv : raw.date = none ∨ raw.date = some ""
  · simp [transform_apod_data, hv] at h
  · simp only [transform_apod_data, if_neg hv] at h
    injection h with h2
    subst h2
    refine ⟨rfl, pySlice_length _ 1000, rfl, pySlice_length _ 255, ?_, ?_⟩
    · intro hle
      exact pySlice_of_le _ 1000 hle
    · intro hle
      exact pySlice_of_le _ 255 hle

/-- C7 witness: the theorem applied to `rawLong` (explanation of length
2000, absent copyright): the output explanation has length exactly 1000
and the defaulted copyright "NASA" passes through untruncated. -/
theorem transform_truncation_witness :
    tLong.explanation.length = 1000 ∧ tLong.copyright = "NASA" := by
  have h := transform_truncation rawLong "2024-11-14T00:05:00" tLong rfl
  constructor
  · rw [h.2.1]
    have hlen : (String.mk (List.replicate 2000 'e')).length = 2000 := by
      show (List.replicate 2000 'e').length = 2000
      exact List.length_replicate 2000 'e'
    show min 1000 (String.mk (List.replicate 2000 'e')).length = 1000
    rw [hlen]
    omega
  · exact h.2.2.2.2.2 (by decide)

theorem commit_result_clean (repo : Repo) (data? : Option TransformedRecord)
    (h : repoClean repo = true) :
    commit_to_git repo data?
      = ({ repo with config := applyCommitConfig repo.config }, .noChanges) := by
  have h1 : repoClean { repo with config := applyCommitConfig repo.config } = true := h
  simp [commit_to_git, h1]

theorem commit_result_dirty (repo : Repo) (data? : Option TransformedRecord)
    (h : repoClean repo = false) :
    commit_to_git repo data?
      = ({ repo with
            config := applyCommitConfig repo.config
            commits := { message := "Update APOD data version for " ++ commitDate data?
                         tree := repo.workTree } :: repo.commits },
         .committed (repo.commits.length + 1)
           ("Update APOD data version for " ++ commitDate data?)) := by
  have h1 : repoClean { repo with config := applyCommitConfig repo.config } = false := h
  simp [commit_to_git, h1, headHash]

/-- C3: running `commit_to_git` twice with no intervening working-tree
change makes the second call a no-op (`No changes to commit`) that leaves
the commit list and head hash unchanged; and whenever the tree is clean
no commit is attempted at all. -/
theorem commit_idempotent_no_double_commit (repo : Repo) (data? : Option TransformedRecord) :
    (commit_to_git (commit_to_git repo data?).1 data?).2 = .noChanges
    ∧ (commit_to_git (commit_to_git repo data?).1 data?).1.commits
        = (commit_to_git repo data?).1.commits
    ∧ headHash (commit_to_git (commit_to_git repo data?).1 data?).1
        = headHash (commit_to_git repo data?).1
    ∧ (repoClean repo = true → (commit_to_git repo data?).2 = .noChanges
        ∧ (commit_to_git repo data?).1.commits = repo.commits) := by
  cases hc : repoClean repo with
  | true =>
      rw [commit_result_clean repo data? hc]
      have hc2 : repoClean { repo with config := applyCommitConfig repo.config } = true := hc
      rw [commit_result_clean _ data? hc2]
      exact ⟨rfl, rfl, rfl, fun _ => ⟨rfl, rfl⟩⟩
  | false =>
      rw [commit_result_dirty repo data? hc]
      have hc2 : repoClean
          { repo with
            config := applyCommitConfig repo.config
            commits := { message := "Update APOD data version for " ++ commitDate data?
                         tree := repo.workTree } :: repo.commits } = true := by
        simp [repoClean]
      rw [commit_result_clean _ data? hc2]
      refine ⟨rfl, rfl, rfl, ?_⟩
      intro h
      simp [hc] at h

/-- C3 witness: the theorem applied to a dirty repository (the second
call after the first commit is a no-op) and to a clean repository (no
commit is attempted). -/
theorem commit_idempotent_witness :
    (commit_to_git (commit_to_git repoDirtySample none).1 none).2 = .noChanges
    ∧ (commit_to_git repoCleanSample none).2 = .noChanges := by
  have h1 := commit_idempotent_no_double_commit repoDirtySample none
  have h2 := commit_idempotent_no_double_commit repoCleanSample none
  exact ⟨h1.1, (h2.2.2.2 (by decide)).1⟩

/-- C9 counterexample: `commit_to_git` overwrites an existing author
identity — starting from a repository configured for `alice@example.com`,
the call leaves the hard-coded identity instead, so "never overwritten"
is false as stated. -/
theorem commit_overwrites_identity :
    repoAlice.config.userEmail = some "alice@example.com"
    ∧ (commit_to_git repoAlice none).1.config.userEmail = some "itsmezayynn@gmail.com"
    ∧ (commit_to_git repoAlice none).1.config.userEmail ≠ repoAlice.config.userEmail := by
  decide

/-- C9 (amended): the remote reference is created only if absent — an
existing remote URL is never overwritten — and the credential helper is
untouched; but the author identity (`user.email`, `user.name`) is set
unconditionally to the hard-coded GitHub identity on every call,
overwriting any existing values, and a `safe.directory` entry is appended
to the global configuration on every call. -/
theorem commit_config_effects (repo : Repo) (data? : Option TransformedRecord) :
    (∀ u, repo.config.remoteOrigin = some u →
      (commit_to_git repo data?).1.config.remoteOrigin = some u)
    ∧ (repo.config.remoteOrigin = none →
      (commit_to_git repo data?).1.config.remoteOrigin = some githubRemoteUrl)
    ∧ (commit_to_git repo data?).1.config.userEmail = some "itsmezayynn@gmail.com"
    ∧ (commit_to_git repo data?).1.config.userName = some "zainulabidin776"
    ∧ (commit_to_git repo data?).1.config.credentialHelper = repo.config.credentialHelper
    ∧ (commit_to_git repo data?).1.config.safeDirs = repo.config.safeDirs ++ [dataDir] := by
  have hcfg : (commit_to_git repo data?).1.config = applyCommitConfig repo.config := by
    cases hc : repoClean repo with
    | true => rw [commit_result_clean repo data? hc]
    | false => rw [commit_result_dirty repo data? hc]
  rw [hcfg]
  refine ⟨?_, ?_, ?_, ?_, ?_, ?_⟩
  · intro u hu
    simp [applyCommitConfig, hu]
  · intro hn
    simp [applyCommitConfig, hn]
  · cases h : repo.config.remoteOrigin <;> simp [applyCommitConfig, h]
  · cases h : repo.config.remoteOrigin <;> simp [applyCommitConfig, h]
  · cases h : repo.config.remoteOrigin <;> simp [applyCommitConfig, h]
  · cases h : repo.config.remoteOrigin <;> simp [applyCommitConfig, h]

/-- C9 witness: the amended theorem applied to a repository with an
existing remote (preserved) and to one without (the default remote is
added). -/
theorem commit_config_effects_witness :
    (commit_to_git repoAlice none).1.config.remoteOrigin = some "https://example.com/other.git"
    ∧ (commit_to_git repoCleanSample none).1.config.remoteOrigin = some githubRemoteUrl := by
  have h1 := commit_config_effects repoAlice none
  have h2 := commit_config_effects repoCleanSample none
  exact ⟨h1.1 "https://example.com/other.git" rfl, h2.2.1 rfl⟩

/-- C10: invoked with no transformed record available (`xcom_pull`
returned nothing), `commit_to_git` still completes: on a clean tree it
returns the no-op result, and on a dirty tree it commits with the literal
placeholder message "Update APOD data version for unknown". -/
theorem commit_missing_record_unknown (repo : Repo) :
    (repoClean repo = true → (commit_to_git repo none).2 = .noChanges)
    ∧ (repoClean repo = false →
        (commit_to_git repo none).2
          = .committed (repo.commits.length + 1) "Update APOD data version for unknown") := by
  constructor
  · intro h
    rw [commit_result_clean repo none h]
  · intro h
    rw [commit_result_dirty repo none h]
    show CommitOutcome.committed (repo.commits.length + 1)
        ("Update APOD data version for " ++ commitDate none)
      = CommitOutcome.committed (repo.commits.length + 1) "Update APOD data version for unknown"
    have hmsg : "Update APOD data version for " ++ commitDate none
        = "Update APOD data version for unknown" := by decide
    rw [hmsg]

/-- C10 witness: the theorem applied to the concrete clean and dirty
sample repositories. -/
theorem commit_missing_record_unknown_witness :
    (commit_to_git repoCleanSample none).2 = .noChanges
    ∧ (commit_to_git repoDirtySample none).2
        = .committed 1 "Update APOD data version for unknown" := by
  have h1 := commit_missing_record_unknown repoCleanSample
  have h2 := commit_missing_record_unknown repoDirtySample
  exact ⟨h1.1 (by decide), h2.2 (by decide)⟩

theorem pushOutcome_reason_ne_no_remote (o : PushOutcome) : o.reason ≠ "no-remote" := by
  cases o with
  | pushed b => exact (by decide : "pushed" ≠ "no-remote")
  | pushFailed c => exact (by decide : "push-failed" ≠ "no-remote")
  | skipped => exact (by decide : "skipped" ≠ "no-remote")

/-- C8 (amended): `push_to_github` never propagates a failure — every
path returns an outcome, and the returned outcome is the success result
exactly when a head commit exists and the push exit code is zero; with no
configured remote the function does not return a "no-remote" reason (no
outcome ever carries one): it adds the default origin remote and attempts
the push anyway. -/
theorem push_best_effort (repo : Repo) (env : PushEnv) :
    ((push_to_github repo env).2.ok = true ↔ (repo.commits ≠ [] ∧ env.pushReturnCode = 0))
    ∧ (repo.config.remoteOrigin = none →
        (push_to_github repo env).1.config.remoteOrigin = some githubRemoteUrl)
    ∧ (push_to_github repo env).2.reason ≠ "no-remote" := by
  refine ⟨?_, ?_, pushOutcome_reason_ne_no_remote _⟩
  · cases hcom : repo.commits with
    | nil => simp [push_to_github, hcom, PushOutcome.ok]
    | cons c cs =>
        by_cases hrc : env.pushReturnCode = 0
        · simp [push_to_github, hcom, hrc, PushOutcome.ok]
        · simp [push_to_github, hcom, hrc, PushOutcome.ok]
  · intro hro
    cases hcom : repo.commits with
    | nil => simp [push_to_github, hcom, hro]
    | cons c cs =>
        cases htok : env.githubToken with
        | none =>
            by_cases hrc : env.pushReturnCode = 0 <;>
              by_cases hbr : repo.branch = "master" <;>
                cases hcm : env.checkoutMasterOk <;>
                  cases hct : env.checkoutTrackOk <;>
                    simp [push_to_github, hcom, hro, htok, hrc, hbr, hcm, hct]
        | some tok =>
            by_cases hrc : env.pushReturnCode = 0 <;>
              by_cases hbr : repo.branch = "master" <;>
                cases hcm : env.checkoutMasterOk <;>
                  cases hct : env.checkoutTrackOk <;>
                    simp [push_to_github, hcom, hro, htok, hrc, hbr, hcm, hct]

/-- C8 counterexample: with no configured remote and a failing push, the
function returns the push-failed outcome — after configuring the default
remote itself — not an `ok=false, reason="no-remote"` result; no return
path of `push_to_github` carries a "no-remote" reason. -/
theorem push_no_remote_not_reported :
    repoWithCommit.config.remoteOrigin = none
    ∧ (push_to_github repoWithCommit envPushFail).2 = .pushFailed 1
    ∧ (push_to_github repoWithCommit envPushFail).2.ok = false
    ∧ (push_to_github repoWithCommit envPushFail).2.reason ≠ "no-remote"
    ∧ (push_to_github repoWithCommit envPushFail).1.config.remoteOrigin = some githubRemoteUrl := by
  decide

/-- C8 witness: the amended theorem applied to a repository with a commit
and no remote, under a succeeding push and under a failing push. -/
theorem push_best_effort_witness :
    (push_to_github repoWithCommit envPushOk).2.ok = true
    ∧ (push_to_github repoWithCommit envPushFail).1.config.remoteOrigin = some githubRemoteUrl := by
  have h1 := push_best_effort repoWithCommit envPushOk
  have h2 := push_best_effort repoWithCommit envPushFail
  exact ⟨h1.1.mpr ⟨by decide, rfl⟩, h2.2.1 rfl⟩
